import Mathlib

/-!
# Verification of the Taskflow-MEAN task-management application

Shallow embedding of `src/app.js`:

* `TaskDB` (storage layer, lines 19-139): localStorage-backed CRUD over a
  single serialized task collection.
* `TaskAPI` (access layer, lines 149-244): async envelope wrappers over
  `TaskDB` (the artificial `delay` has no observable effect on results and is
  not modelled).
* `AppComponent` filtering/search (presentation layer, lines 680-725):
  pure list functions over the cached task collection.

JavaScript faults (a thrown `SyntaxError` from `JSON.parse`) are modelled
with `Except JsFault`; JS `undefined`/absent object fields are modelled with
`Option`; JS `parseInt` is modelled by `jsParseInt` below.
-/

set_option autoImplicit false

namespace TaskFlow

/-- A task record, the single persisted entity (fields as in the seed
objects, app.js lines 29-38).  Timestamps (`createdAt`, `updatedAt`) are ISO
8601 strings produced by `new Date().toISOString()`; on such strings
lexicographic string order agrees with chronological order. -/
structure Task where
  id : Int
  title : String
  description : String
  priority : String
  dueDate : String
  status : String
  createdAt : String
  updatedAt : String
deriving DecidableEq, Repr

/-- The raw value stored under the localStorage key `meanstack_tasks`,
abstracted to the three behaviours `getAllTasks` (app.js 85-88)
distinguishes:
* `goodJson l` — a `JSON.stringify` of a task array (always a non-empty,
  hence truthy, string that parses back to `l`);
* `badJson` — a non-empty (truthy) string on which `JSON.parse` throws;
* `emptyStr` — the empty string `""`, which is falsy in JS. -/
inductive StoredVal where
  | goodJson : List Task → StoredVal
  | badJson : StoredVal
  | emptyStr : StoredVal
deriving DecidableEq

/-- The localStorage cell for the key: `none` when `getItem` returns
`null` (nothing stored), `some v` when a string is stored. -/
abbrev Storage := Option StoredVal

/-- A thrown JavaScript fault (here only the `SyntaxError` that
`JSON.parse` throws on malformed input). -/
inductive JsFault where
  | parseFault : JsFault
deriving DecidableEq

/-- JS whitespace skipped by `parseInt` (the common ASCII cases): space
(code 32) and the control range tab, line feed, vertical tab, form feed,
carriage return (codes 9-13). -/
def isJsSpace (c : Char) : Bool :=
  c.toNat == 32 || (9 ≤ c.toNat && c.toNat ≤ 13)

/-- Decimal digit value of a character, if any (codes 48-57 are
`0`-`9`). -/
def jsDigitValue (c : Char) : Option Nat :=
  if 48 ≤ c.toNat && c.toNat ≤ 57 then some (c.toNat - 48) else none

/-- Hexadecimal digit value of a character, if any (codes 48-57 are
`0`-`9`, 97-102 are `a`-`f`, 65-70 are `A`-`F`). -/
def jsHexValue (c : Char) : Option Nat :=
  if 48 ≤ c.toNat && c.toNat ≤ 57 then some (c.toNat - 48)
  else if 97 ≤ c.toNat && c.toNat ≤ 102 then some (c.toNat - 87)
  else if 65 ≤ c.toNat && c.toNat ≤ 70 then some (c.toNat - 55)
  else none

/-- Accumulate the greedy digit prefix of `cs` (digits read by `val?`)
into `acc`, in the given base; stops at the first non-digit. -/
def takeDigits (val? : Char → Option Nat) (base : Nat) : List Char → Nat → Nat
  | [], acc => acc
  | c :: cs, acc =>
    match val? c with
    | some d => takeDigits val? base cs (acc * base + d)
    | none => acc

/-- Model of JavaScript `parseInt(s)` (radix argument omitted, as in
app.js): skip leading whitespace, read an optional sign, then the greedy
digit prefix — hexadecimal after a `0x`/`0X` prefix, decimal otherwise.
`none` models the result `NaN` (no digit could be read). -/
def jsParseInt (s : String) : Option Int :=
  let cs := s.toList.dropWhile isJsSpace
  let signed : Int × List Char :=
    match cs with
    | '-' :: rest => (-1, rest)
    | '+' :: rest => (1, rest)
    | _ => (1, cs)
  match signed.2 with
  | '0' :: c :: rest =>
    if c == 'x' || c == 'X' then
      match rest with
      | d :: _ =>
        if (jsHexValue d).isSome then
          some (signed.1 * (takeDigits jsHexValue 16 rest 0 : Int))
        else none
      | [] => none
    else
      some (signed.1 * (takeDigits jsDigitValue 10 ('0' :: c :: rest) 0 : Int))
  | c :: rest =>
    if (jsDigitValue c).isSome then
      some (signed.1 * (takeDigits jsDigitValue 10 (c :: rest) 0 : Int))
    else none
  | [] => none

/-- The id comparison `task.id === parseInt(id)` used by `getTaskById`,
`updateTask` and `deleteTask` (app.js 93, 113, 129): `NaN` (`none`) is
`===`-equal to nothing. -/
def idMatches (id : String) (t : Task) : Bool :=
  jsParseInt id == some t.id

/-- The five literal seed tasks written by `initializeDatabase`
(app.js 28-79). -/
def seedTasks : List Task :=
  [ { id := 1,
      title := "Complete MEAN Stack Project",
      description := "Build a full-stack task management application using MongoDB, Express.js, Angular, and Node.js",
      priority := "High", dueDate := "2025-09-15", status := "Pending",
      createdAt := "2025-08-20T10:00:00Z", updatedAt := "2025-08-20T10:00:00Z" },
    { id := 2,
      title := "Study Angular Framework",
      description := "Learn Angular concepts including components, services, routing, and data binding",
      priority := "Medium", dueDate := "2025-08-30", status := "Completed",
      createdAt := "2025-08-18T14:30:00Z", updatedAt := "2025-08-21T09:15:00Z" },
    { id := 3,
      title := "Setup Development Environment",
      description := "Install Node.js, MongoDB, Angular CLI, and VS Code with necessary extensions",
      priority := "High", dueDate := "2025-08-22", status := "Completed",
      createdAt := "2025-08-17T11:20:00Z", updatedAt := "2025-08-19T16:45:00Z" },
    { id := 4,
      title := "Design Database Schema",
      description := "Plan the MongoDB collection structure for tasks, users, and categories",
      priority := "Medium", dueDate := "2025-09-01", status := "Pending",
      createdAt := "2025-08-19T13:10:00Z", updatedAt := "2025-08-19T13:10:00Z" },
    { id := 5,
      title := "Create REST API Endpoints",
      description := "Develop Express.js routes for CRUD operations on tasks",
      priority := "High", dueDate := "2025-09-05", status := "Pending",
      createdAt := "2025-08-20T08:45:00Z", updatedAt := "2025-08-20T08:45:00Z" } ]

/-- Whether `localStorage.getItem(key)` is truthy for this storage state:
`null` (absent) and the empty string are falsy, every other string truthy. -/
def isTruthy : Storage → Bool
  | none => false
  | some .emptyStr => false
  | some (.goodJson _) => true
  | some .badJson => true

/-- `TaskDB.initializeDatabase` (app.js 26-82): if `getItem` is falsy the
seed collection is written, otherwise the storage cell is untouched. -/
def initializeDatabase (st : Storage) : Storage :=
  if isTruthy st then st else some (.goodJson seedTasks)

/-- `TaskDB.getAllTasks` (app.js 85-88):
`tasks ? JSON.parse(tasks) : []` — absence or an empty (falsy) string
yields `[]`; a truthy string is fed to `JSON.parse`, which throws on
malformed input (the function has no try/catch). -/
def getAllTasks : Storage → Except JsFault (List Task)
  | none => .ok []
  | some .emptyStr => .ok []
  | some (.goodJson l) => .ok l
  | some .badJson => .error .parseFault

/-- `TaskDB.getTaskById` (app.js 91-94): `tasks.find(task => task.id ===
parseInt(id))`; `undefined` on no match is modelled by `none`. -/
def getTaskById (st : Storage) (id : String) : Except JsFault (Option Task) :=
  (getAllTasks st).map fun tasks => tasks.find? (idMatches id)

/-- `TaskDB.generateId` (app.js 135-138):
`tasks.length > 0 ? Math.max(...tasks.map(t => t.id)) + 1 : 1`. -/
def generateId (tasks : List Task) : Int :=
  match tasks.map Task.id with
  | [] => 1
  | x :: xs => xs.foldl max x + 1

/-- The argument object of `TaskDB.createTask`.  Both UI forms
(`getTaskFormData`, `getEditTaskFormData`, app.js 728-746) always supply
`title`/`description`/`priority`/`dueDate`/`status`, so those are plain
fields; `id`, `createdAt` and `updatedAt` are never supplied by the UI but
the spread `{id: generateId(), ...taskData, createdAt: .., updatedAt: ..}`
gives them override semantics, kept here as `Option` fields. -/
structure TaskData where
  id : Option Int := none
  title : String
  description : String
  priority : String
  dueDate : String
  status : String
  createdAt : Option String := none
  updatedAt : Option String := none
deriving DecidableEq

/-- `TaskDB.createTask` (app.js 97-108), with the current
`new Date().toISOString()` passed in as `now`.  The spread order means a
caller-supplied `id` overrides the generated one, while caller-supplied
`createdAt`/`updatedAt` are themselves overridden by `now`. -/
def createTask (st : Storage) (d : TaskData) (now : String) :
    Except JsFault (Task × Storage) :=
  (getAllTasks st).map fun tasks =>
    let newTask : Task :=
      { id := d.id.getD (generateId tasks),
        title := d.title, description := d.description,
        priority := d.priority, dueDate := d.dueDate, status := d.status,
        createdAt := now, updatedAt := now }
    (newTask, some (.goodJson (tasks ++ [newTask])))

/-- The argument object of `TaskDB.updateTask`: a partial record
shallow-merged over the stored task.  The edit form supplies the five
content fields; the status toggle supplies only `status`; `id`,
`createdAt` and `updatedAt` are never supplied by callers but the spread
would honour them, so they are kept. -/
structure UpdateData where
  id : Option Int := none
  title : Option String := none
  description : Option String := none
  priority : Option String := none
  dueDate : Option String := none
  status : Option String := none
  createdAt : Option String := none
  updatedAt : Option String := none
deriving DecidableEq

/-- The merge `{...tasks[taskIndex], ...updateData, updatedAt: now}`
(app.js 115-119): each field supplied by `updateData` wins over the stored
one, and `updatedAt` is then unconditionally set to `now`. -/
def mergeTask (t : Task) (u : UpdateData) (now : String) : Task :=
  { id := u.id.getD t.id,
    title := u.title.getD t.title,
    description := u.description.getD t.description,
    priority := u.priority.getD t.priority,
    dueDate := u.dueDate.getD t.dueDate,
    status := u.status.getD t.status,
    createdAt := u.createdAt.getD t.createdAt,
    updatedAt := now }

/-- `tasks.findIndex(p)` followed by in-place replacement
`tasks[taskIndex] = f(tasks[taskIndex])` (app.js 113-119): replaces the
first element satisfying `p`, returning the new element and the new list,
or `none` when `findIndex` gives `-1`. -/
def updateFirst (p : Task → Bool) (f : Task → Task) :
    List Task → Option (Task × List Task)
  | [] => none
  | t :: ts =>
    if p t then some (f t, f t :: ts)
    else
      match updateFirst p f ts with
      | some (u, ts') => some (u, t :: ts')
      | none => none

/-- The `updateData` object `{status: "Completed"}` sent by the status
toggle (app.js 615). -/
def statusCompletedPatch : UpdateData := { status := some "Completed" }

/-- `TaskDB.updateTask` (app.js 111-124): locate by `parseInt` id
comparison; on a hit, merge, persist and return the merged task; on a miss
return `null` (`none`) and leave storage untouched. -/
def updateTask (st : Storage) (id : String) (u : UpdateData) (now : String) :
    Except JsFault (Option Task × Storage) :=
  (getAllTasks st).map fun tasks =>
    match updateFirst (idMatches id) (fun t => mergeTask t u now) tasks with
    | some (t', tasks') => (some t', some (.goodJson tasks'))
    | none => (none, st)

/-- `TaskDB.deleteTask` (app.js 127-132): filter out every task whose id
matches, always persist the filtered list, always return `true`. -/
def deleteTask (st : Storage) (id : String) :
    Except JsFault (Bool × Storage) :=
  (getAllTasks st).map fun tasks =>
    (true, some (.goodJson (tasks.filter fun t => !(idMatches id t))))

/-- The `data` field of an access-layer envelope: a single task
(get/create/update) or the full collection (list). -/
inductive RespData where
  | one : Task → RespData
  | many : List Task → RespData
deriving DecidableEq

/-- The uniform `{success, data?, message}` envelope returned by every
`TaskAPI` method (app.js 149-244); `data` is absent on failure paths. -/
structure ApiResponse where
  success : Bool
  data : Option RespData := none
  message : String
deriving DecidableEq

/-- `TaskAPI.getTasks` (app.js 160-167).  The method body has no
try/catch, so a fault thrown by `getAllTasks` propagates (the `Except`
error is not converted).  The artificial `delay` is not modelled. -/
def apiGetTasks (st : Storage) : Except JsFault ApiResponse :=
  (getAllTasks st).map fun l =>
    { success := true, data := some (.many l),
      message := "Tasks retrieved successfully" }

/-- `TaskAPI.getTask` (app.js 170-184): no try/catch, so storage faults
propagate; an absent task becomes a `success:false` envelope. -/
def apiGetTask (st : Storage) (id : String) : Except JsFault ApiResponse :=
  (getTaskById st id).map fun
    | some t =>
      { success := true, data := some (.one t),
        message := "Task retrieved successfully" }
    | none => { success := false, message := "Task not found" }

/-- `TaskAPI.createTask` (app.js 187-202): the try/catch converts any
thrown storage fault into a `success:false` envelope, leaving storage as
it was (the fault is thrown before any write). -/
def apiCreateTask (st : Storage) (d : TaskData) (now : String) :
    Except JsFault (ApiResponse × Storage) :=
  match createTask st d now with
  | .ok (t, st') =>
    .ok ({ success := true, data := some (.one t),
           message := "Task created successfully" }, st')
  | .error _ =>
    .ok ({ success := false, message := "Failed to create task" }, st)

/-- `TaskAPI.updateTask` (app.js 205-226): `null` from the storage layer
becomes the not-found envelope; a thrown fault is caught and converted. -/
def apiUpdateTask (st : Storage) (id : String) (u : UpdateData) (now : String) :
    Except JsFault (ApiResponse × Storage) :=
  match updateTask st id u now with
  | .ok (some t, st') =>
    .ok ({ success := true, data := some (.one t),
           message := "Task updated successfully" }, st')
  | .ok (none, st') =>
    .ok ({ success := false, message := "Task not found" }, st')
  | .error _ =>
    .ok ({ success := false, message := "Failed to update task" }, st)

/-- `TaskAPI.deleteTask` (app.js 229-243): always succeeds when the
storage layer does not throw; a thrown fault is caught and converted. -/
def apiDeleteTask (st : Storage) (id : String) :
    Except JsFault (ApiResponse × Storage) :=
  match deleteTask st id with
  | .ok (_, st') =>
    .ok ({ success := true, message := "Task deleted successfully" }, st')
  | .error _ =>
    .ok ({ success := false, message := "Failed to delete task" }, st)

/-- `AppComponent.getFilteredTasksByStatus` (app.js 716-725): the
`switch` on the active filter; the default branch copies the list. -/
def getFilteredTasksByStatus (tasks : List Task) (currentFilter : String) :
    List Task :=
  match currentFilter with
  | "pending" => tasks.filter fun t => t.status == "Pending"
  | "completed" => tasks.filter fun t => t.status == "Completed"
  | _ => tasks

/-- `a.includes(b)` on JavaScript strings: `b` occurs as a contiguous
substring of `a` (the empty string occurs in every string). -/
def jsIncludes (a b : String) : Bool :=
  go b.toList a.toList
where
  /-- Does `sub` occur as a contiguous run inside `s`? -/
  go (sub s : List Char) : Bool :=
    sub.isPrefixOf s ||
      match s with
      | [] => false
      | _ :: rest => go sub rest

/-- The test `!query.trim()` (app.js 681): `trim()` returns the empty
(falsy) string exactly when every character of the query is whitespace. -/
def isBlank (s : String) : Bool :=
  s.toList.all isJsSpace

/-- `s.toLowerCase()` on JavaScript strings, modelled character by
character (exact for the ASCII letters appearing in this application). -/
def jsToLower (s : String) : String :=
  (s.toList.map Char.toLower).asString

/-- `AppComponent.searchTasks` (app.js 680-693): a blank (empty or
all-whitespace) query falls back to `applyCurrentFilter`, i.e. the pure
status-filtered view; otherwise the status-filtered view is narrowed to
tasks whose lower-cased title or description contains the lower-cased
query. -/
def searchTasks (tasks : List Task) (currentFilter query : String) :
    List Task :=
  if isBlank query then getFilteredTasksByStatus tasks currentFilter
  else
    (getFilteredTasksByStatus tasks currentFilter).filter fun t =>
      jsIncludes (jsToLower t.title) (jsToLower query) ||
        jsIncludes (jsToLower t.description) (jsToLower query)

/-! ## Helper lemmas -/

/-- `updateFirst` on a list whose first match is `t`: every element of the
prefix is left alone, `t` is replaced by `f t`, the suffix is left alone. -/
theorem updateFirst_append (p : Task → Bool) (f : Task → Task)
    (l₁ l₂ : List Task) (t : Task)
    (h₁ : ∀ u ∈ l₁, p u = false) (h₂ : p t = true) :
    updateFirst p f (l₁ ++ t :: l₂) = some (f t, l₁ ++ f t :: l₂) := by
  induction l₁ with
  | nil => simp [updateFirst, h₂]
  | cons a as ih =>
    have ha : p a = false := h₁ a (by simp)
    have ih' := ih fun u hu => h₁ u (by simp [hu])
    simp [updateFirst, ha, ih']

/-- `updateFirst` finds nothing when no element matches. -/
theorem updateFirst_eq_none (p : Task → Bool) (f : Task → Task)
    (l : List Task) (h : ∀ u ∈ l, p u = false) :
    updateFirst p f l = none := by
  induction l with
  | nil => rfl
  | cons a as ih =>
    have ha : p a = false := h a (by simp)
    have ih' := ih fun u hu => h u (by simp [hu])
    simp [updateFirst, ha, ih']

/-- `List.foldl max` bounds: the fold is an upper bound of the seed and of
every element, and is itself the seed or an element. -/
theorem foldl_max_spec (x : Int) (xs : List Int) :
    (x ≤ xs.foldl max x ∧ ∀ y ∈ xs, y ≤ xs.foldl max x)
      ∧ (xs.foldl max x = x ∨ xs.foldl max x ∈ xs) := by
  induction xs generalizing x with
  | nil => simp
  | cons a as ih =>
    have h := ih (max x a)
    rw [List.foldl_cons]
    refine ⟨⟨le_trans (le_max_left x a) h.1.1, ?_⟩, ?_⟩
    · intro y hy
      rcases List.mem_cons.mp hy with hya | hyas
      · rw [hya]; exact le_trans (le_max_right x a) h.1.1
      · exact h.1.2 y hyas
    · rcases h.2 with heq | hmem
      · rw [heq]
        rcases max_choice x a with hx | ha
        · exact Or.inl hx
        · exact Or.inr (by rw [ha]; exact List.mem_cons_self a as)
      · exact Or.inr (List.mem_cons_of_mem a hmem)

/-- `generateId` returns the successor of the maximum id: if `k` is an id
of the collection and bounds every id, the generated id is `k + 1`. -/
theorem generateId_eq_succ_max (l : List Task) (k : Int)
    (hmem : k ∈ l.map Task.id) (hub : ∀ j ∈ l.map Task.id, j ≤ k) :
    generateId l = k + 1 := by
  unfold generateId
  rcases hids : l.map Task.id with _ | ⟨x, xs⟩
  · rw [hids] at hmem; cases hmem
  · rw [hids] at hmem hub
    have hspec := foldl_max_spec x xs
    have hle : xs.foldl max x ≤ k := by
      rcases hspec.2 with heq | hin
      · rw [heq]; exact hub x (by simp)
      · exact hub _ (List.mem_cons_of_mem x hin)
    have hge : k ≤ xs.foldl max x := by
      rcases List.mem_cons.mp hmem with hkx | hkxs
      · rw [hkx]; exact hspec.1.1
      · exact hspec.1.2 k hkxs
    show xs.foldl max x + 1 = k + 1
    rw [le_antisymm hle hge]

/-- When `parseInt` yields `k`, the id comparison used by the storage
layer is exactly the test `t.id == k`. -/
theorem idMatches_of_parse (idStr : String) (k : Int) (t : Task)
    (h : jsParseInt idStr = some k) :
    idMatches idStr t = (t.id == k) := by
  by_cases hk : t.id = k
  · simp [idMatches, h, hk]
  · simp only [idMatches, h]
    have h₁ : (some k == some t.id) = false := by
      simp
      exact fun he => hk he.symm
    have h₂ : (t.id == k) = false := by simp [hk]
    rw [h₁, h₂]

/-- When `parseInt` yields `NaN`, the id comparison used by the storage
layer rejects every task. -/
theorem idMatches_of_nan (idStr : String) (t : Task)
    (h : jsParseInt idStr = none) :
    idMatches idStr t = false := by
  simp [idMatches, h]

/-- Removing the unique task carrying id `k` from a collection with
pairwise-distinct ids: the length drops by one and no remaining task
carries `k`. -/
theorem filter_out_unique_id (l : List Task) (k : Int)
    (hnd : (l.map Task.id).Nodup) (hmem : k ∈ l.map Task.id) :
    (l.filter fun t => !(t.id == k)).length + 1 = l.length
      ∧ ∀ t ∈ l.filter (fun t => !(t.id == k)), ¬ t.id = k := by
  refine ⟨?_, ?_⟩
  · induction l with
    | nil => cases hmem
    | cons a as ih =>
      rw [List.map_cons, List.nodup_cons] at hnd
      rw [List.map_cons] at hmem
      by_cases hak : a.id = k
      · have hfilter : as.filter (fun t => !(t.id == k)) = as := by
          rw [List.filter_eq_self]
          intro t ht
          have htk : ¬ t.id = k := by
            intro he
            have hmm : t.id ∈ as.map Task.id := List.mem_map_of_mem Task.id ht
            rw [he, ← hak] at hmm
            exact hnd.1 hmm
          simp [htk]
        simp [List.filter_cons, hak, hfilter]
      · have hkas : k ∈ as.map Task.id := by
          rcases List.mem_cons.mp hmem with h1 | h2
          · exact absurd h1.symm hak
          · exact h2
        have ihlen := ih hnd.2 hkas
        have hpa : (!(a.id == k)) = true := by simp [hak]
        simp [List.filter_cons, hpa]
        omega
  · intro t ht
    have hp := (List.mem_filter.mp ht).2
    simpa using hp

/-! ## Claim theorems -/

/-- C3 counterexample: the claim says `getAll()` "never raises an error",
but on a stored value that fails to deserialize `getAllTasks` propagates
the `JSON.parse` fault (there is no try/catch in app.js 85-88). -/
theorem getAllTasks_raises_on_bad_json :
    getAllTasks (some StoredVal.badJson) = .error JsFault.parseFault := rfl

/-- C3 (amended): `getAll()` returns the full persisted collection; when
nothing is persisted under the key (or the stored string is empty) it
returns the empty sequence; but a persisted value that fails to
deserialize makes it raise the parse fault rather than return `[]`. -/
theorem getAllTasks_amended :
    getAllTasks none = .ok ([] : List Task)
      ∧ getAllTasks (some .emptyStr) = .ok ([] : List Task)
      ∧ (∀ l : List Task, getAllTasks (some (.goodJson l)) = .ok l)
      ∧ getAllTasks (some .badJson) = .error .parseFault :=
  ⟨rfl, rfl, fun _ => rfl, rfl⟩

/-- C4: from empty storage, `initialize()` then `getAll()` yields exactly
the five seed tasks with ids 1–5 and the five literal titles; on any
storage state holding a non-empty (truthy) string, `initialize()` leaves
the stored cell — hence the stored collection — unchanged. -/
theorem initialize_seeds_once (st : Storage) (h : isTruthy st = true) :
    getAllTasks (initializeDatabase none) = .ok seedTasks
      ∧ seedTasks.length = 5
      ∧ seedTasks.map Task.id = [1, 2, 3, 4, 5]
      ∧ seedTasks.map Task.title =
          ["Complete MEAN Stack Project", "Study Angular Framework",
           "Setup Development Environment", "Design Database Schema",
           "Create REST API Endpoints"]
      ∧ initializeDatabase st = st := by
  refine ⟨rfl, rfl, rfl, rfl, ?_⟩
  simp [initializeDatabase, h]

/-- C4 witness: after the first `initialize()` the cell is truthy, and the
theorem applies to it, so a second `initialize()` changes nothing. -/
theorem initialize_seeds_once_witness :
    isTruthy (initializeDatabase none) = true
      ∧ (getAllTasks (initializeDatabase none) = .ok seedTasks
          ∧ seedTasks.length = 5
          ∧ seedTasks.map Task.id = [1, 2, 3, 4, 5]
          ∧ seedTasks.map Task.title =
              ["Complete MEAN Stack Project", "Study Angular Framework",
               "Setup Development Environment", "Design Database Schema",
               "Create REST API Endpoints"]
          ∧ initializeDatabase (initializeDatabase none) = initializeDatabase none) :=
  ⟨rfl, initialize_seeds_once (initializeDatabase none) rfl⟩

/-- A small concrete task used to instantiate theorems with hypotheses. -/
def demoTask : Task :=
  { id := 1, title := "Demo", description := "A demo task",
    priority := "High", dueDate := "2025-09-15", status := "Pending",
    createdAt := "2025-08-20T10:00:00Z", updatedAt := "2025-08-20T10:00:00Z" }

/-- C1: when the collection contains a task with the given id,
`update(id, {status:"Completed"})` rewrites exactly that task — its
`status` becomes `"Completed"`, its `updatedAt` becomes the current time —
and leaves `title`, `description`, `priority`, `dueDate`, `createdAt` and
every other task of the collection unchanged; provided the current time is
later than the task's previous `updatedAt` (ISO timestamps compare
lexicographically), the new `updatedAt` is strictly greater. -/
theorem update_status_changes_only_status_updatedAt
    (st : Storage) (l₁ l₂ : List Task) (t : Task) (idStr now : String)
    (hget : getAllTasks st = .ok (l₁ ++ t :: l₂))
    (hmiss : ∀ u ∈ l₁, idMatches idStr u = false)
    (hhit : idMatches idStr t = true)
    (hclock : t.updatedAt < now) :
    ∃ t', updateTask st idStr statusCompletedPatch now
            = .ok (some t', some (.goodJson (l₁ ++ t' :: l₂)))
      ∧ t'.status = "Completed"
      ∧ t'.id = t.id
      ∧ t'.title = t.title ∧ t'.description = t.description
      ∧ t'.priority = t.priority ∧ t'.dueDate = t.dueDate
      ∧ t'.createdAt = t.createdAt
      ∧ t.updatedAt < t'.updatedAt := by
  have hupd := updateFirst_append (idMatches idStr)
    (fun u => mergeTask u statusCompletedPatch now) l₁ l₂ t hmiss hhit
  refine ⟨mergeTask t statusCompletedPatch now, ?_, rfl, rfl, rfl, rfl, rfl, rfl, rfl, hclock⟩
  unfold updateTask
  rw [hget]
  simp only [Except.map, hupd]

/-- C1 witness: a one-task collection, id `"1"`, a later clock. -/
theorem update_status_changes_only_status_updatedAt_witness :
    (∀ u ∈ ([] : List Task), idMatches "1" u = false)
      ∧ idMatches "1" demoTask = true
      ∧ demoTask.updatedAt < "2025-08-21T00:00:00Z"
      ∧ (∃ t', updateTask (some (.goodJson [demoTask])) "1"
                  statusCompletedPatch "2025-08-21T00:00:00Z"
                = .ok (some t', some (.goodJson ([] ++ t' :: [])))
            ∧ t'.status = "Completed"
            ∧ t'.id = demoTask.id
            ∧ t'.title = demoTask.title ∧ t'.description = demoTask.description
            ∧ t'.priority = demoTask.priority ∧ t'.dueDate = demoTask.dueDate
            ∧ t'.createdAt = demoTask.createdAt
            ∧ demoTask.updatedAt < t'.updatedAt) :=
  ⟨fun u hu => absurd hu (List.not_mem_nil u), by decide,
    by rw [String.lt_iff_toList_lt]; decide,
    update_status_changes_only_status_updatedAt
      (some (.goodJson [demoTask])) [] [] demoTask "1" "2025-08-21T00:00:00Z"
      rfl (fun u hu => absurd hu (List.not_mem_nil u)) (by decide)
      (by rw [String.lt_iff_toList_lt]; decide)⟩

/-- C5: when `fields` does not itself carry an id (as in both UI forms),
`create` appends a task whose id is the successor of the collection's
maximum id, and id `1` on the empty collection. -/
theorem create_assigns_successor_id :
    (∀ (st : Storage) (l : List Task) (d : TaskData) (now : String) (k : Int),
        getAllTasks st = .ok l → d.id = none → k ∈ l.map Task.id →
        (∀ j ∈ l.map Task.id, j ≤ k) →
        ∃ t, createTask st d now = .ok (t, some (.goodJson (l ++ [t])))
          ∧ t.id = k + 1)
      ∧ (∀ (st : Storage) (d : TaskData) (now : String),
          getAllTasks st = .ok [] → d.id = none →
          ∃ t, createTask st d now = .ok (t, some (.goodJson [t])) ∧ t.id = 1) := by
  constructor
  · intro st l d now k hget hid hmem hub
    refine ⟨{ id := d.id.getD (generateId l), title := d.title,
              description := d.description, priority := d.priority,
              dueDate := d.dueDate, status := d.status,
              createdAt := now, updatedAt := now }, ?_, ?_⟩
    · unfold createTask
      rw [hget]
      rfl
    · show (d.id.getD (generateId l)) = k + 1
      rw [hid, Option.getD_none, generateId_eq_succ_max l k hmem hub]
  · intro st d now hget hid
    refine ⟨{ id := d.id.getD (generateId []), title := d.title,
              description := d.description, priority := d.priority,
              dueDate := d.dueDate, status := d.status,
              createdAt := now, updatedAt := now }, ?_, ?_⟩
    · unfold createTask
      rw [hget]
      rfl
    · show (d.id.getD (generateId [])) = 1
      rw [hid, Option.getD_none]
      rfl

/-- C5 witness: the seed collection (max id 5) gets id 6; the empty
collection gets id 1. -/
theorem create_assigns_successor_id_witness :
    (getAllTasks (some (.goodJson seedTasks)) = .ok seedTasks
      ∧ ({ title := "t", description := "", priority := "Low",
           dueDate := "", status := "Pending" } : TaskData).id = none
      ∧ (5 : Int) ∈ seedTasks.map Task.id
      ∧ (∀ j ∈ seedTasks.map Task.id, j ≤ (5 : Int))
      ∧ (∃ t, createTask (some (.goodJson seedTasks))
                { title := "t", description := "", priority := "Low",
                  dueDate := "", status := "Pending" } "2025-09-01T00:00:00Z"
              = .ok (t, some (.goodJson (seedTasks ++ [t]))) ∧ t.id = 5 + 1))
      ∧ (∃ t, createTask none
                { title := "t", description := "", priority := "Low",
                  dueDate := "", status := "Pending" } "2025-09-01T00:00:00Z"
              = .ok (t, some (.goodJson [t])) ∧ t.id = 1) :=
  ⟨⟨rfl, rfl, by decide, by decide,
      create_assigns_successor_id.1 (some (.goodJson seedTasks)) seedTasks
        { title := "t", description := "", priority := "Low",
          dueDate := "", status := "Pending" } "2025-09-01T00:00:00Z" 5
        rfl rfl (by decide) (by decide)⟩,
    create_assigns_successor_id.2 none
      { title := "t", description := "", priority := "Low",
        dueDate := "", status := "Pending" } "2025-09-01T00:00:00Z" rfl rfl⟩

/-- C6: an id matching no task: `getById` reports absence (`none`, not a
fault), `update` reports absence and returns the storage cell untouched,
and `delete` reports success while the stored collection (what `getAll`
yields) is unchanged. -/
theorem missing_id_not_found_collection_unchanged
    (st : Storage) (l : List Task) (idStr now : String) (u : UpdateData)
    (hget : getAllTasks st = .ok l)
    (hmiss : ∀ t ∈ l, idMatches idStr t = false) :
    getTaskById st idStr = .ok none
      ∧ updateTask st idStr u now = .ok (none, st)
      ∧ deleteTask st idStr = .ok (true, some (.goodJson l))
      ∧ getAllTasks (some (.goodJson l)) = .ok l := by
  refine ⟨?_, ?_, ?_, rfl⟩
  · unfold getTaskById
    rw [hget]
    simp only [Except.map]
    rw [List.find?_eq_none.mpr fun x hx => by simp [hmiss x hx]]
  · unfold updateTask
    rw [hget]
    simp only [Except.map, updateFirst_eq_none _ _ l hmiss]
  · unfold deleteTask
    rw [hget]
    simp only [Except.map]
    rw [List.filter_eq_self.mpr fun a ha => by simp [hmiss a ha]]

/-- C6 witness: id `"99"` against the seed collection. -/
theorem missing_id_not_found_collection_unchanged_witness :
    (∀ t ∈ seedTasks, idMatches "99" t = false)
      ∧ (getTaskById (some (.goodJson seedTasks)) "99" = .ok none
          ∧ updateTask (some (.goodJson seedTasks)) "99" statusCompletedPatch
              "2025-09-01T00:00:00Z" = .ok (none, some (.goodJson seedTasks))
          ∧ deleteTask (some (.goodJson seedTasks)) "99"
              = .ok (true, some (.goodJson seedTasks))
          ∧ getAllTasks (some (.goodJson seedTasks)) = .ok seedTasks) :=
  ⟨by decide,
    missing_id_not_found_collection_unchanged (some (.goodJson seedTasks))
      seedTasks "99" "2025-09-01T00:00:00Z" statusCompletedPatch rfl (by decide)⟩

/-- C7: deleting an id present in a collection with pairwise-distinct ids
shrinks the collection by exactly one; repeating the same delete leaves
both the collection and the stored cell exactly as the first delete left
them. -/
theorem delete_decrements_then_idempotent
    (st : Storage) (l : List Task) (idStr : String) (k : Int)
    (hget : getAllTasks st = .ok l)
    (hparse : jsParseInt idStr = some k)
    (hnd : (l.map Task.id).Nodup)
    (hmem : k ∈ l.map Task.id) :
    ∃ l', deleteTask st idStr = .ok (true, some (.goodJson l'))
      ∧ l'.length + 1 = l.length
      ∧ deleteTask (some (.goodJson l')) idStr
          = .ok (true, some (.goodJson l')) := by
  have hpred : (fun t => !(idMatches idStr t)) = fun t => !(t.id == k) := by
    funext t
    rw [idMatches_of_parse idStr k t hparse]
  have hspec := filter_out_unique_id l k hnd hmem
  refine ⟨l.filter fun t => !(t.id == k), ?_, hspec.1, ?_⟩
  · unfold deleteTask
    rw [hget]
    simp only [Except.map]
    rw [hpred]
  · have hkeep :
        ((l.filter fun t => !(t.id == k)).filter fun t => !(t.id == k))
          = l.filter fun t => !(t.id == k) :=
      List.filter_eq_self.mpr fun a ha => by simp [hspec.2 a ha]
    unfold deleteTask
    simp only [getAllTasks, Except.map]
    rw [hpred, hkeep]

/-- C7 witness: deleting id `"3"` from the seed collection twice. -/
theorem delete_decrements_then_idempotent_witness :
    jsParseInt "3" = some 3
      ∧ (seedTasks.map Task.id).Nodup
      ∧ (3 : Int) ∈ seedTasks.map Task.id
      ∧ (∃ l', deleteTask (some (.goodJson seedTasks)) "3"
                  = .ok (true, some (.goodJson l'))
            ∧ l'.length + 1 = seedTasks.length
            ∧ deleteTask (some (.goodJson l')) "3"
                = .ok (true, some (.goodJson l'))) :=
  ⟨by decide, by decide, by decide,
    delete_decrements_then_idempotent (some (.goodJson seedTasks)) seedTasks
      "3" 3 rfl (by decide) (by decide) (by decide)⟩

/-- A small `TaskData` argument as the UI create form would produce it. -/
def demoTaskData : TaskData :=
  { title := "t", description := "", priority := "Low",
    dueDate := "", status := "Pending" }

/-- C2 counterexample: the claim says no access-layer operation ever
propagates an uncaught fault, but `TaskAPI.getTasks` (app.js 160-167) has
no try/catch, so the `JSON.parse` fault from the storage layer propagates
to the caller. -/
theorem api_list_propagates_fault :
    apiGetTasks (some StoredVal.badJson) = .error JsFault.parseFault := rfl

/-- C2 (amended): `create`, `update` and `delete` catch a thrown storage
fault and return a `success:false` envelope with their operation-specific
failure message, leaving storage untouched (and these three never
propagate a fault); `list` and `getOne`, which have no try/catch, let a
storage fault propagate uncaught to the caller. -/
theorem api_fault_handling_split :
    (∀ (st : Storage) (d : TaskData) (now : String),
        createTask st d now = .error .parseFault →
        apiCreateTask st d now
          = .ok ({ success := false, message := "Failed to create task" }, st))
      ∧ (∀ (st : Storage) (id : String) (u : UpdateData) (now : String),
          updateTask st id u now = .error .parseFault →
          apiUpdateTask st id u now
            = .ok ({ success := false, message := "Failed to update task" }, st))
      ∧ (∀ (st : Storage) (id : String),
          deleteTask st id = .error .parseFault →
          apiDeleteTask st id
            = .ok ({ success := false, message := "Failed to delete task" }, st))
      ∧ (∀ (st : Storage) (d : TaskData) (now : String),
          ∃ r, apiCreateTask st d now = .ok r)
      ∧ (∀ (st : Storage) (id : String) (u : UpdateData) (now : String),
          ∃ r, apiUpdateTask st id u now = .ok r)
      ∧ (∀ (st : Storage) (id : String), ∃ r, apiDeleteTask st id = .ok r)
      ∧ (∀ st : Storage, getAllTasks st = .error .parseFault →
          apiGetTasks st = .error .parseFault)
      ∧ (∀ (st : Storage) (id : String), getAllTasks st = .error .parseFault →
          apiGetTask st id = .error .parseFault) := by
  refine ⟨?_, ?_, ?_, ?_, ?_, ?_, ?_, ?_⟩
  · intro st d now h
    unfold apiCreateTask
    rw [h]
  · intro st id u now h
    unfold apiUpdateTask
    rw [h]
  · intro st id h
    unfold apiDeleteTask
    rw [h]
  · intro st d now
    cases hc : createTask st d now with
    | error e =>
      exact ⟨({ success := false, message := "Failed to create task" }, st),
        by unfold apiCreateTask; rw [hc]⟩
    | ok p =>
      exact ⟨({ success := true, data := some (.one p.1),
                message := "Task created successfully" }, p.2),
        by unfold apiCreateTask; rw [hc]⟩
  · intro st id u now
    rcases hc : updateTask st id u now with e | ⟨o, st'⟩
    · exact ⟨({ success := false, message := "Failed to update task" }, st),
        by unfold apiUpdateTask; rw [hc]⟩
    · cases o with
      | some t =>
        exact ⟨({ success := true, data := some (.one t),
                  message := "Task updated successfully" }, st'),
          by unfold apiUpdateTask; rw [hc]⟩
      | none =>
        exact ⟨({ success := false, message := "Task not found" }, st'),
          by unfold apiUpdateTask; rw [hc]⟩
  · intro st id
    cases hc : deleteTask st id with
    | error e =>
      exact ⟨({ success := false, message := "Failed to delete task" }, st),
        by unfold apiDeleteTask; rw [hc]⟩
    | ok p =>
      exact ⟨({ success := true, message := "Task deleted successfully" }, p.2),
        by unfold apiDeleteTask; rw [hc]⟩
  · intro st h
    unfold apiGetTasks
    rw [h]
    rfl
  · intro st id h
    unfold apiGetTask getTaskById
    rw [h]
    rfl

/-- C2 witness: a malformed stored value makes `create` return the caught
failure envelope while `list` propagates the fault. -/
theorem api_fault_handling_split_witness :
    createTask (some StoredVal.badJson) demoTaskData "2025-09-01T00:00:00Z"
        = .error .parseFault
      ∧ apiCreateTask (some StoredVal.badJson) demoTaskData "2025-09-01T00:00:00Z"
          = .ok ({ success := false, message := "Failed to create task" },
              some StoredVal.badJson)
      ∧ getAllTasks (some StoredVal.badJson) = .error .parseFault
      ∧ apiGetTasks (some StoredVal.badJson) = .error .parseFault :=
  ⟨rfl,
    api_fault_handling_split.1 (some StoredVal.badJson) demoTaskData
      "2025-09-01T00:00:00Z" rfl,
    rfl,
    api_fault_handling_split.2.2.2.2.2.2.1 (some StoredVal.badJson) rfl⟩

/-- C9: the created task's `createdAt` and `updatedAt` are always the
creation time, even when the `fields` argument supplies its own
timestamps (the spread puts them after `...taskData`); an `id` supplied in
`fields` overrides the generated id (the spread puts `id` before
`...taskData`). -/
theorem create_overrides_timestamps_not_id
    (st : Storage) (d : TaskData) (now : String) (t : Task) (st' : Storage)
    (h : createTask st d now = .ok (t, st')) :
    t.createdAt = now ∧ t.updatedAt = now
      ∧ ∀ j : Int, d.id = some j → t.id = j := by
  unfold createTask at h
  cases hg : getAllTasks st with
  | error e => rw [hg] at h; cases h
  | ok tasks =>
    rw [hg] at h
    simp only [Except.map, Except.ok.injEq, Prod.mk.injEq] at h
    obtain ⟨h1, _⟩ := h
    refine ⟨?_, ?_, ?_⟩
    · rw [← h1]
    · rw [← h1]
    · intro j hj
      rw [← h1]
      show d.id.getD (generateId tasks) = j
      rw [hj]
      rfl

/-- C9 witness: `fields` supplying id 42 and stale timestamps. -/
theorem create_overrides_timestamps_not_id_witness :
    createTask none
        { id := some 42, title := "t", description := "", priority := "Low",
          dueDate := "", status := "Pending",
          createdAt := some "1999-01-01T00:00:00Z",
          updatedAt := some "1999-01-01T00:00:00Z" } "2025-09-01T00:00:00Z"
      = .ok ({ id := 42, title := "t", description := "", priority := "Low",
               dueDate := "", status := "Pending",
               createdAt := "2025-09-01T00:00:00Z",
               updatedAt := "2025-09-01T00:00:00Z" },
          some (.goodJson
            [{ id := 42, title := "t", description := "", priority := "Low",
               dueDate := "", status := "Pending",
               createdAt := "2025-09-01T00:00:00Z",
               updatedAt := "2025-09-01T00:00:00Z" }]))
      ∧ (({ id := 42, title := "t", description := "", priority := "Low",
            dueDate := "", status := "Pending",
            createdAt := "2025-09-01T00:00:00Z",
            updatedAt := "2025-09-01T00:00:00Z" } : Task).createdAt
            = "2025-09-01T00:00:00Z"
          ∧ ({ id := 42, title := "t", description := "", priority := "Low",
               dueDate := "", status := "Pending",
               createdAt := "2025-09-01T00:00:00Z",
               updatedAt := "2025-09-01T00:00:00Z" } : Task).updatedAt
              = "2025-09-01T00:00:00Z"
          ∧ ∀ j : Int,
              ({ id := some 42, title := "t", description := "",
                 priority := "Low", dueDate := "", status := "Pending",
                 createdAt := some "1999-01-01T00:00:00Z",
                 updatedAt := some "1999-01-01T00:00:00Z" } : TaskData).id
                = some j →
              ({ id := 42, title := "t", description := "", priority := "Low",
                 dueDate := "", status := "Pending",
                 createdAt := "2025-09-01T00:00:00Z",
                 updatedAt := "2025-09-01T00:00:00Z" } : Task).id = j) :=
  ⟨rfl,
    create_overrides_timestamps_not_id none
      { id := some 42, title := "t", description := "", priority := "Low",
        dueDate := "", status := "Pending",
        createdAt := some "1999-01-01T00:00:00Z",
        updatedAt := some "1999-01-01T00:00:00Z" } "2025-09-01T00:00:00Z"
      _ _ rfl⟩

/-- C10: `getById`, `update` and `delete` all locate their target by
comparing each task's integer id to `parseInt` of the (possibly string)
argument: when the argument's numeric prefix parses to `k` the operations
act on the task(s) with id `k`, and when it parses to no integer (`NaN`)
no task matches — `getById` and `update` report absence and `delete`
leaves the collection unchanged, none of them throwing. -/
theorem lookup_by_integer_parse :
    (∀ (st : Storage) (l : List Task) (idStr : String) (k : Int),
        getAllTasks st = .ok l → jsParseInt idStr = some k →
        getTaskById st idStr = .ok (l.find? fun t => t.id == k))
      ∧ (∀ (st : Storage) (l : List Task) (idStr : String) (u : UpdateData)
            (now : String) (k : Int),
          getAllTasks st = .ok l → jsParseInt idStr = some k →
          updateTask st idStr u now
            = .ok (match updateFirst (fun t => t.id == k)
                      (fun t => mergeTask t u now) l with
                   | some (t', l') => (some t', some (.goodJson l'))
                   | none => (none, st)))
      ∧ (∀ (st : Storage) (l : List Task) (idStr : String) (k : Int),
          getAllTasks st = .ok l → jsParseInt idStr = some k →
          deleteTask st idStr
            = .ok (true, some (.goodJson (l.filter fun t => !(t.id == k)))))
      ∧ (∀ (st : Storage) (l : List Task) (idStr : String) (u : UpdateData)
            (now : String),
          getAllTasks st = .ok l → jsParseInt idStr = none →
          getTaskById st idStr = .ok none
            ∧ updateTask st idStr u now = .ok (none, st)
            ∧ deleteTask st idStr = .ok (true, some (.goodJson l))) := by
  refine ⟨?_, ?_, ?_, ?_⟩
  · intro st l idStr k hget hparse
    have hpred : idMatches idStr = fun t => t.id == k := by
      funext t
      exact idMatches_of_parse idStr k t hparse
    unfold getTaskById
    rw [hget]
    simp only [Except.map, hpred]
  · intro st l idStr u now k hget hparse
    have hpred : idMatches idStr = fun t => t.id == k := by
      funext t
      exact idMatches_of_parse idStr k t hparse
    unfold updateTask
    rw [hget]
    simp only [Except.map, hpred]
  · intro st l idStr k hget hparse
    have hpred : idMatches idStr = fun t => t.id == k := by
      funext t
      exact idMatches_of_parse idStr k t hparse
    unfold deleteTask
    rw [hget]
    simp only [Except.map, hpred]
  · intro st l idStr u now hget hparse
    have hmiss : ∀ t ∈ l, idMatches idStr t = false :=
      fun t _ => idMatches_of_nan idStr t hparse
    refine ⟨?_, ?_, ?_⟩
    · unfold getTaskById
      rw [hget]
      simp only [Except.map]
      rw [List.find?_eq_none.mpr fun x hx => by simp [hmiss x hx]]
    · unfold updateTask
      rw [hget]
      simp only [Except.map, updateFirst_eq_none _ _ l hmiss]
    · unfold deleteTask
      rw [hget]
      simp only [Except.map]
      rw [List.filter_eq_self.mpr fun a ha => by simp [hmiss a ha]]

/-- C10 witness: the string `"3abc"` (numeric prefix 3) locates seed task
3; the string `"abc"` parses to `NaN` and matches nothing. -/
theorem lookup_by_integer_parse_witness :
    jsParseInt "3abc" = some 3
      ∧ getTaskById (some (.goodJson seedTasks)) "3abc"
          = .ok (seedTasks.find? fun t => t.id == (3 : Int))
      ∧ jsParseInt "abc" = none
      ∧ (getTaskById (some (.goodJson seedTasks)) "abc" = .ok none
          ∧ updateTask (some (.goodJson seedTasks)) "abc" statusCompletedPatch
              "2025-09-01T00:00:00Z" = .ok (none, some (.goodJson seedTasks))
          ∧ deleteTask (some (.goodJson seedTasks)) "abc"
              = .ok (true, some (.goodJson seedTasks))) :=
  ⟨by decide,
    lookup_by_integer_parse.1 (some (.goodJson seedTasks)) seedTasks "3abc" 3
      rfl (by decide),
    by decide,
    lookup_by_integer_parse.2.2.2 (some (.goodJson seedTasks)) seedTasks "abc"
      statusCompletedPatch "2025-09-01T00:00:00Z" rfl (by decide)⟩

/-- A task whose title and description contain no whitespace, used to
separate a blank search query from the substring criterion. -/
def blankQueryTask : Task :=
  { id := 1, title := "abc", description := "xyz", priority := "Low",
    dueDate := "2025-01-01", status := "Pending",
    createdAt := "2025-01-01T00:00:00Z", updatedAt := "2025-01-01T00:00:00Z" }

/-- C8 counterexample: with filter `"all"` and the search query `" "` (a
single space) the task is shown, although the query is not a
case-insensitive substring of its title or of its description — a blank
query short-circuits to the plain status filter (app.js 681-684), so the
claimed iff fails. -/
theorem search_blank_query_shows_nonmatching_task :
    searchTasks [blankQueryTask] "all" " " = [blankQueryTask]
      ∧ jsIncludes (jsToLower blankQueryTask.title) (jsToLower " ") = false
      ∧ jsIncludes (jsToLower blankQueryTask.description) (jsToLower " ") = false :=
  ⟨rfl, by decide, by decide⟩

/-- C8 (amended): `"pending"` selects exactly the tasks with status
`"Pending"`, `"completed"` exactly those with status `"Completed"`, and
any other filter (such as `"all"`) every task; for a search query that is
not blank (not empty nor all-whitespace), a task is shown iff it passes
the active status filter and the lower-cased query is a substring of its
lower-cased title or description; a blank query shows exactly the status
filter's view, regardless of the substring criterion. -/
theorem filter_and_search_amended :
    (∀ (T : List Task) (t : Task),
        t ∈ getFilteredTasksByStatus T "pending" ↔ t ∈ T ∧ t.status = "Pending")
      ∧ (∀ (T : List Task) (t : Task),
          t ∈ getFilteredTasksByStatus T "completed"
            ↔ t ∈ T ∧ t.status = "Completed")
      ∧ (∀ T : List Task, getFilteredTasksByStatus T "all" = T)
      ∧ (∀ (T : List Task) (f q : String) (t : Task), isBlank q = false →
          (t ∈ searchTasks T f q ↔
            t ∈ getFilteredTasksByStatus T f
              ∧ (jsIncludes (jsToLower t.title) (jsToLower q) = true
                  ∨ jsIncludes (jsToLower t.description) (jsToLower q) = true)))
      ∧ (∀ (T : List Task) (f q : String), isBlank q = true →
          searchTasks T f q = getFilteredTasksByStatus T f) := by
  have hpend : ∀ T : List Task,
      getFilteredTasksByStatus T "pending"
        = T.filter fun t => t.status == "Pending" := fun _ => rfl
  have hcomp : ∀ T : List Task,
      getFilteredTasksByStatus T "completed"
        = T.filter fun t => t.status == "Completed" := fun _ => rfl
  refine ⟨?_, ?_, fun _ => rfl, ?_, ?_⟩
  · intro T t
    rw [hpend]
    simp [List.mem_filter]
  · intro T t
    rw [hcomp]
    simp [List.mem_filter]
  · intro T f q t hq
    unfold searchTasks
    rw [hq]
    simp [List.mem_filter]
  · intro T f q hq
    unfold searchTasks
    rw [hq]
    simp

/-- C8 witness: a non-blank query that matches the title, and a blank
query falling back to the status filter. -/
theorem filter_and_search_amended_witness :
    isBlank "AB" = false
      ∧ (blankQueryTask ∈ searchTasks [blankQueryTask] "all" "AB" ↔
          blankQueryTask ∈ getFilteredTasksByStatus [blankQueryTask] "all"
            ∧ (jsIncludes (jsToLower blankQueryTask.title) (jsToLower "AB") = true
                ∨ jsIncludes (jsToLower blankQueryTask.description)
                    (jsToLower "AB") = true))
      ∧ isBlank " " = true
      ∧ searchTasks [blankQueryTask] "all" " "
          = getFilteredTasksByStatus [blankQueryTask] "all" :=
  ⟨rfl,
    filter_and_search_amended.2.2.2.1 [blankQueryTask] "all" "AB"
      blankQueryTask rfl,
    rfl,
    filter_and_search_amended.2.2.2.2 [blankQueryTask] "all" " " rfl⟩

end TaskFlow
